import Mathlib

/-!
Verification of the Batch Sequence Discovery & Naming Engine of the
Render_To_Gif_Blender add-on (src/render_gif.py), via a shallow embedding.

Strings are embedded as their character lists (`List Char`); the Python
standard-library calls the add-on makes (os.path.commonprefix, str.rstrip,
str.lower, str.endswith, posixpath join/basename/dirname/normpath,
str.split) are embedded below by their documented semantics; the add-on's
own logic (prefix inference, output naming, the directory walk with
output-folder pruning, and the batch loop) is translated line by line from
GIF_OT_convert.execute and GIF_OT_batch_process.execute.
-/

/-- ASCII digit test: membership of a character in the Python string
literal passed to rstrip at render_gif.py:245, namely the ten characters
0123456789 (code points 48 to 57). -/
def isDigitCh (c : Char) : Bool := 48 ≤ c.toNat && c.toNat ≤ 57

/-- Longest common leading prefix of two character lists. -/
def lcp2 : List Char → List Char → List Char
  | a :: as, b :: bs => if a = b then a :: lcp2 as bs else []
  | _, _ => []

/-- os.path.commonprefix (render_gif.py:241): the longest common leading
substring of all strings in the list; the empty string for an empty list. -/
def commonPfx : List (List Char) → List Char
  | [] => []
  | x :: xs => xs.foldl lcp2 x

/-- Python str.rstrip with argument 0123456789 (render_gif.py:245):
remove the maximal run of trailing ASCII digit characters. -/
def rstripDigits (l : List Char) : List Char :=
  (l.reverse.dropWhile isDigitCh).reverse

/-- The batch operator's prefix inference (render_gif.py:241-245):
base_prefix = os.path.commonprefix(pngs).rstrip(digits). -/
def inferPfx (pngs : List String) : String :=
  String.mk (rstripDigits (commonPfx (pngs.map String.data)))

/-- Leading-substring test on character lists (Python str.startswith). -/
def startsWithL : List Char → List Char → Bool
  | [], _ => true
  | _, [] => false
  | a :: as, b :: bs => a = b && startsWithL as bs

/-- Trailing-substring test on character lists (Python str.endswith). -/
def endsWithL (suf l : List Char) : Bool := startsWithL suf.reverse l.reverse

/-- Python str.split with separator "/": split at every slash, keeping
empty components (so "a//b" gives ["a", "", "b"]). -/
def splitSlash : List Char → List (List Char)
  | [] => [[]]
  | c :: cs =>
    if c = '/' then [] :: splitSlash cs
    else
      match splitSlash cs with
      | [] => [[c]]
      | h :: t => (c :: h) :: t

/-- The single-dot path component. -/
def dotL : List Char := ['.']

/-- The double-dot path component. -/
def dotdotL : List Char := ['.', '.']

/-- One iteration of the component loop of posixpath.normpath: skip empty
and "." components; append a component unless it is a ".." that cancels
against a previous real component. -/
def npStep (hasRoot : Bool) (acc : List (List Char)) (comp : List Char) :
    List (List Char) :=
  if comp = [] ∨ comp = dotL then acc
  else if comp ≠ dotdotL ∨ (hasRoot = false ∧ acc = []) ∨
      (acc ≠ [] ∧ acc.getLast? = some dotdotL) then
    acc ++ [comp]
  else if acc ≠ [] then acc.dropLast
  else acc

/-- posixpath.normpath (os.path.normpath at render_gif.py:84): collapse
repeated separators and "."/".." components, keep a leading "/" (or a
POSIX-special leading "//"), return "." for an empty result. -/
def normpathL (p : List Char) : List Char :=
  if p = [] then dotL
  else
    let root1 : Bool := startsWithL ['/'] p
    let root2 : Bool := startsWithL ['/', '/'] p && !startsWithL ['/', '/', '/'] p
    let nc := (splitSlash p).foldl (npStep root1) []
    let joined := List.intercalate ['/'] nc
    let out := (if root1 then (if root2 then ['/', '/'] else ['/']) else []) ++ joined
    if out = [] then dotL else out

/-- posixpath.basename (os.path.basename): everything after the last
slash; the whole string when it has no slash. -/
def basenameL (p : List Char) : List Char :=
  (p.reverse.takeWhile (fun c => c ≠ '/')).reverse

/-- Remove trailing slashes (Python str.rstrip with separator argument). -/
def rstripSlashes (l : List Char) : List Char :=
  (l.reverse.dropWhile (fun c => c = '/')).reverse

/-- posixpath.dirname (os.path.dirname): everything up to and including
the last slash, with trailing slashes then stripped unless the head is
all slashes. -/
def dirnameL (p : List Char) : List Char :=
  let head := (p.reverse.dropWhile (fun c => c ≠ '/')).reverse
  if head ≠ [] ∧ ¬ head.all (fun c => c = '/') then rstripSlashes head else head

/-- posixpath.join (os.path.join) of two components: the second wins if
absolute; otherwise they are glued, inserting a slash unless the first is
empty or already ends in one. -/
def pyJoinL (a b : List Char) : List Char :=
  if startsWithL ['/'] b then b
  else if a = [] ∨ endsWithL ['/'] a then a ++ b
  else a ++ '/' :: b

/-- The literal ".gif" extension. -/
def dotGifL : List Char := ".gif".data

/-- The Naming Resolver (render_gif.py:83-101): normalize the render
directory, take its basename and its parent's basename, and build
"{parent}_{current}.gif", "{current}.gif", or the literal fallback
"animation.gif". -/
def gifNameL (renderDir : List Char) : List Char :=
  let clean := normpathL renderDir
  let cur := basenameL clean
  let par := basenameL (dirnameL clean)
  if par ≠ [] ∧ cur ≠ [] then par ++ '_' :: (cur ++ dotGifL)
  else if cur ≠ [] then cur ++ dotGifL
  else "animation.gif".data

/-- String-level wrapper of the Naming Resolver. -/
def gifName (renderDir : String) : String := String.mk (gifNameL renderDir.data)

/-- Python str.lower on the ASCII range (the only range these filename
comparisons exercise): map the letters A-Z (65-90) to a-z. -/
def lowerCh (c : Char) : Char :=
  if 65 ≤ c.toNat ∧ c.toNat ≤ 90 then Char.ofNat (c.toNat + 32) else c

/-- Python str.lower applied to a whole string. -/
def lowerL (l : List Char) : List Char := l.map lowerCh

/-- Case-sensitive frame filter of GIF_OT_convert.execute
(render_gif.py:67): filenames that literally end in ".png". -/
def pngFilesCS (files : List String) : List String :=
  files.filter (fun f => endsWithL (".png".data) f.data)

/-- Case-insensitive frame filter of GIF_OT_batch_process.execute
(render_gif.py:233): filenames whose lowercased form ends in ".png". -/
def pngFilesCI (files : List String) : List String :=
  files.filter (fun f => endsWithL (".png".data) (lowerL f.data))

/-- The collaborators GIF_OT_convert.execute consults: the preference's
ffmpeg path together with the results of os.path.exists and
os.path.isfile on it, the scene frame rate, and the exit status the
external encoder process returns for a given command line (0 = success). -/
structure GifConfig where
  ffmpegPath : String
  pathExists : Bool
  pathIsFile : Bool
  fps : Nat
  encoderExit : List String → Nat

/-- The four ways GIF_OT_convert.execute can end: the three CANCELLED
returns (invalid ffmpeg path, no PNG frames, encoder error) and FINISHED. -/
inductive ConvertOutcome where
  | invalidPath
  | noFrames
  | encoderError
  | finished
deriving DecidableEq

/-- The exact ffmpeg command line built at render_gif.py:105-123: the
overwrite flag, the input frame rate, the input pattern
{render_dir}/{name}%04d.png with the fixed 4-digit zero-padded field, the
two-pass palette filter chain, and the output file {render_dir}/gifs/{gif_name}. -/
def buildCmd (cfg : GifConfig) (renderDir pfxName : String) : List String :=
  [cfg.ffmpegPath, "-y", "-framerate", toString cfg.fps,
   "-i", String.mk (pyJoinL renderDir.data (pfxName.data ++ "%04d.png".data)),
   "-filter_complex", "[0:v]palettegen=stats_mode=diff[p];[0:v][p]paletteuse",
   String.mk (pyJoinL (pyJoinL renderDir.data "gifs".data) (gifNameL renderDir.data))]

/-- Result of one GIF_OT_convert.execute call: the outcome, the encoder
command line when the encoder was invoked, and the reported error. -/
structure ConvertRun where
  outcome : ConvertOutcome
  invoked : Option (List String)
  errorMsg : Option String
deriving DecidableEq

/-- GIF_OT_convert.execute (render_gif.py:45-137), called with the scene
render filepath and the directory listing of its dirname: validate the
ffmpeg path; filter the listing case-sensitively for ".png"; build the
command and run the encoder, a non-zero exit status being reported as an
error.  (The blend-relative "//" fallback for an empty directory and the
missing-directory branch are not exercised by any claim: the listing
parameter stands for an existing directory's contents.) -/
def convertRun (cfg : GifConfig) (filepath : String) (listing : List String) :
    ConvertRun :=
  if ¬ (cfg.pathExists ∧ cfg.pathIsFile) then
    ⟨.invalidPath, none, some "FFmpeg path is invalid in Add-on Preferences"⟩
  else if pngFilesCS listing = [] then
    ⟨.noFrames, none, some "Error: No PNGs rendered at location"⟩
  else
    let cmd := buildCmd cfg (String.mk (dirnameL filepath.data))
      (String.mk (basenameL filepath.data))
    { outcome := if cfg.encoderExit cmd = 0 then .finished else .encoderError,
      invoked := some cmd,
      errorMsg := if cfg.encoderExit cmd = 0 then none else some "FFmpeg Error" }

mutual
/-- A directory: its name, the plain files it contains, and its
subdirectory listing. -/
inductive DirTree where
  | node (dn : String) (files : List String) (subs : DirForest)
/-- A listing of sibling directories. -/
inductive DirForest where
  | fnil
  | fcons (hd : DirTree) (tl : DirForest)
end

/-- The directory's own name. -/
def DirTree.dname : DirTree → String
  | .node n _ _ => n

mutual
/-- os.walk as used by GIF_OT_batch_process.execute
(render_gif.py:226-230): pre-order traversal yielding each visited
directory's path segments and its file list.  Before descending below a
visited directory, the code removes the first subdirectory named "gifs"
from dirnames (dirnames.remove), so that one is never visited. -/
def walkT (path : List String) : DirTree → List (List String × List String)
  | .node n fs subs => (path ++ [n], fs) :: walkF (path ++ [n]) true subs
/-- Traversal of a sibling listing; canPrune records whether the single
"gifs" removal is still pending for this listing. -/
def walkF (path : List String) (canPrune : Bool) :
    DirForest → List (List String × List String)
  | .fnil => []
  | .fcons t ts =>
    if canPrune ∧ t.dname = "gifs" then walkF path false ts
    else walkT path t ++ walkF path canPrune ts
end

/-- Number of siblings named "gifs" in a listing. -/
def DirForest.gifsCount : DirForest → Nat
  | .fnil => 0
  | .fcons t ts => (if t.dname = "gifs" then 1 else 0) + ts.gifsCount

mutual
/-- Well-formedness of a real directory tree: no sibling listing anywhere
contains two directories with the same name "gifs" (a filesystem listing
cannot repeat a name). -/
def gifsUniqueT : DirTree → Bool
  | .node _ _ subs => decide (subs.gifsCount ≤ 1) && gifsUniqueF subs
def gifsUniqueF : DirForest → Bool
  | .fnil => true
  | .fcons t ts => gifsUniqueT t && gifsUniqueF ts
end

/-- The scene state the batch operator touches: the render filepath. -/
structure Scene where
  filepath : String
deriving DecidableEq

/-- os.walk's dirpath string for a visited directory: the root-folder
string itself at the root, extended by one os.path.join per segment below
it (the first path segment stands for the root folder itself, exactly as
os.walk never uses the root directory's own name). -/
def dirpathStr (root : String) (segs : List String) : String :=
  (segs.drop 1).foldl (fun a n => String.mk (pyJoinL a.data n.data)) root

/-- The temporary scene filepath the batch writes for a visited folder
(render_gif.py:247-252): os.path.join(dirpath, base_prefix). -/
def tmpFilepath (root : String) (e : List String × List String) : String :=
  String.mk (pyJoinL (dirpathStr root e.1).data (inferPfx (pngFilesCI e.2)).data)

/-- Accumulator of the batch loop (render_gif.py:221-266): the processed
counter, the conversion attempts so far (dirpath and outcome, in visit
order), the values written to scene.render.filepath during the loop, and
the current scene. -/
structure LoopState where
  processed : Nat
  attempts : List (String × ConvertOutcome)
  writes : List String
  scene : Scene

/-- One iteration of the batch loop body (render_gif.py:233-266) for a
visited directory: filter its listing case-insensitively for PNG frames;
when any are present, infer the prefix, point scene.render.filepath at
the folder, call the conversion operator on it (the listing passed to the
conversion is this same folder's file list, the contents of the directory
the temporary filepath names), and count the folder when the conversion
finishes.  A failed conversion only skips the folder. -/
def batchStep (cfg : GifConfig) (root : String) (st : LoopState)
    (e : List String × List String) : LoopState :=
  if pngFilesCI e.2 = [] then st
  else
    let tmp := tmpFilepath root e
    let r := convertRun cfg tmp e.2
    { processed := st.processed +
        (if r.outcome = ConvertOutcome.finished then 1 else 0),
      attempts := st.attempts ++ [(dirpathStr root e.1, r.outcome)],
      writes := st.writes ++ [tmp],
      scene := ⟨tmp⟩ }

/-- Result of one whole GIF_OT_batch_process.execute run. -/
structure BatchOut where
  processed : Nat
  attempts : List (String × ConvertOutcome)
  writes : List String
  finalFilepath : String
  summaryMsg : String
  summaryIsWarning : Bool

/-- GIF_OT_batch_process.execute (render_gif.py:214-276): save the scene
render filepath, fold the loop body over the walk, restore the filepath
afterwards, and report the final summary: an INFO message with the
processed count when positive, otherwise a WARNING that no PNG sequences
were found. -/
def batchRun (cfg : GifConfig) (root : String) (t : DirTree) (s0 : Scene) :
    BatchOut :=
  let fin := (walkT [] t).foldl (batchStep cfg root) ⟨0, [], [], s0⟩
  { processed := fin.processed,
    attempts := fin.attempts,
    writes := fin.writes,
    finalFilepath := s0.filepath,
    summaryMsg := if fin.processed > 0 then
        "Batch Complete. Processed " ++ toString fin.processed ++ " folders."
      else "Batch Complete. No PNG sequences found.",
    summaryIsWarning := decide (fin.processed = 0) }

/-- The candidate folders of a walk: visited directories whose listing
passes the case-insensitive PNG filter. -/
def candidatesOf (t : DirTree) : List (List String × List String) :=
  (walkT [] t).filter (fun e => decide (pngFilesCI e.2 ≠ []))

/-- The outcome the conversion operator produces for one candidate. -/
def stepOutcome (cfg : GifConfig) (root : String)
    (e : List String × List String) : ConvertOutcome :=
  (convertRun cfg (tmpFilepath root e) e.2).outcome

/-- Encoder stub for the concrete runs: exit status 1 exactly when the
command line carries the input pattern of folder /r/a, 0 otherwise. -/
def exitFailA : List String → Nat :=
  fun cmd => if cmd.contains "/r/a/f%04d.png" then 1 else 0

/-- Concrete configuration with a valid encoder path. -/
def cfgA : GifConfig := ⟨"/usr/bin/ffmpeg", true, true, 24, exitFailA⟩

/-- Concrete configuration whose encoder path does not exist. -/
def cfgBad : GifConfig := ⟨"C:/missing/ffmpeg.exe", false, false, 24, fun _ => 0⟩

/-- Root with two candidate folders a (frames f0001/f0002) and b
(frames g0001/g0002). -/
def treeA : DirTree :=
  .node "r" [] (.fcons (.node "a" ["f0001.png", "f0002.png"] .fnil)
    (.fcons (.node "b" ["g0001.png", "g0002.png"] .fnil) .fnil))

/-- Root with the single candidate folder b. -/
def treeB : DirTree :=
  .node "r" [] (.fcons (.node "b" ["g0001.png", "g0002.png"] .fnil) .fnil)

/-- Forest concatenation. -/
def DirForest.fappend : DirForest → DirForest → DirForest
  | .fnil, ys => ys
  | .fcons x xs, ys => .fcons x (xs.fappend ys)

/-- Whether a listing holds a subdirectory named "gifs". -/
def DirForest.anyGifs : DirForest → Bool
  | .fnil => false
  | .fcons t ts => t.dname == "gifs" || ts.anyGifs

/-- The os.path.exists check for {dirpath}/gifs (render_gif.py:79): the
visited directory already holds an entry — plain file or subdirectory —
named "gifs". -/
def hasGifsEntry (fs : List String) (subs : DirForest) : Bool :=
  fs.contains "gifs" || subs.anyGifs

/-- Whether processing a visited directory creates its "gifs"
subdirectory: the batch filter selects the folder (render_gif.py:233-235),
the conversion operator passes the encoder-path check (line 51) and finds
case-sensitive PNG frames (lines 67-72), and no "gifs" entry exists yet
(lines 78-80). -/
def createsGifs (cfg : GifConfig) (fs : List String) (subs : DirForest) : Bool :=
  decide (pngFilesCI fs ≠ []) && (cfg.pathExists && cfg.pathIsFile) &&
    decide (pngFilesCS fs ≠ []) && !hasGifsEntry fs subs

/-- The freshly created output folder: an empty "gifs" directory. -/
def gifsNode : DirTree := .node "gifs" [] .fnil

mutual
/-- Effect of one batch run on the directory tree's folder structure:
every visited directory that converts gains an (initially empty) "gifs"
subdirectory when none exists; the first "gifs" sibling of each listing
is pruned from the walk and left untouched.  The directory created while
a folder is processed is not itself walked: os.walk produced the dirnames
listing before it existed. -/
def runT (cfg : GifConfig) : DirTree → DirTree
  | .node n fs subs =>
    DirTree.node n fs
      (if createsGifs cfg fs subs
       then (runF cfg true subs).fappend (.fcons gifsNode .fnil)
       else runF cfg true subs)
/-- The same effect on a sibling listing; canPrune as in walkF. -/
def runF (cfg : GifConfig) (canPrune : Bool) : DirForest → DirForest
  | .fnil => .fnil
  | .fcons t ts =>
    if canPrune ∧ t.dname = "gifs" then .fcons t (runF cfg false ts)
    else .fcons (runT cfg t) (runF cfg canPrune ts)
end

/-- If every element of the first list satisfies p, dropWhile p skips the
whole first list of an append. -/
theorem dropWhile_append_all {p : Char → Bool} :
    ∀ {a b : List Char}, (∀ x ∈ a, p x = true) →
      (a ++ b).dropWhile p = b.dropWhile p := by
  intro a b h
  induction a with
  | nil => rfl
  | cons x xs ih =>
    have hx : p x = true := h x (List.mem_cons_self x xs)
    simp only [List.cons_append, List.dropWhile_cons, hx, if_true]
    exact ih (fun y hy => h y (List.mem_cons_of_mem x hy))

/-- Stripping trailing digits from a string of the form P ++ d, where d is
all digits and P does not end in a digit, yields exactly P. -/
theorem rstripDigits_append (P d : List Char)
    (hd : ∀ c ∈ d, isDigitCh c = true)
    (hP : ∀ c, P.getLast? = some c → isDigitCh c = false) :
    rstripDigits (P ++ d) = P := by
  unfold rstripDigits
  rw [List.reverse_append]
  rw [dropWhile_append_all (fun x hx => hd x (List.mem_reverse.mp hx))]
  cases hrev : P.reverse with
  | nil =>
    have hnil : P = [] := by simpa using congrArg List.reverse hrev
    simp [hnil]
  | cons c rest =>
    have hcl : P.getLast? = some c := by
      rw [← List.head?_reverse, hrev]; rfl
    rw [List.dropWhile_cons, hP c hcl]
    simp only [Bool.false_eq_true, if_false]
    rw [← hrev, List.reverse_reverse]

/-- C1: the claim says that for the one-element frame-file set
["anim0001.png"] the inferred prefix is "anim" (whole filename minus
extension, then trailing digits stripped).  The code (render_gif.py:241-245)
never removes the extension: os.path.commonprefix of a singleton is the
entire filename ".png" included, and rstrip("0123456789") strips nothing
because the name ends in the letter g, so the computed value is the whole
filename "anim0001.png", not "anim".  This theorem evaluates the embedded
code at the failing input. -/
theorem c1_single_file_eval :
    inferPfx ["anim0001.png"] = "anim0001.png" ∧
      ("anim0001.png" : String) ≠ "anim" := by
  constructor
  · rfl
  · decide

/-- C2: for every non-empty file set whose common leading prefix has the
form P ++ d with d consisting of ASCII digits and P not ending in an ASCII
digit (the filenames share the textual prefix P, immediately followed by
digit characters), the inferred prefix is exactly P: the digits are fully
stripped, regardless of digit count. -/
theorem c2_textual_pfx (files : List String) (P d : List Char)
    (hcp : commonPfx (files.map String.data) = P ++ d)
    (hd : ∀ c ∈ d, isDigitCh c = true)
    (hP : ∀ c, P.getLast? = some c → isDigitCh c = false) :
    inferPfx files = String.mk P := by
  unfold inferPfx
  rw [hcp, rstripDigits_append P d hd hP]

theorem c2_textual_pfx_witness :
    inferPfx ["shot_0001.png", "shot_0002.png", "shot_0010.png"] =
      String.mk ("shot_".data) :=
  c2_textual_pfx ["shot_0001.png", "shot_0002.png", "shot_0010.png"]
    ("shot_".data) ("00".data) (by decide) (by decide)
    (by intro c hc; simp only [show ("shot_".data).getLast? = some '_' from rfl,
          Option.some.injEq] at hc; rw [← hc]; rfl)

/-- C5: the Naming Resolver returns "{parent}_{current}.gif" when both the
normalized path's basename and its parent's basename are non-empty,
"{current}.gif" when only the basename is non-empty, and the literal
default "animation.gif" otherwise; in particular /projects/character/stand
yields character_stand.gif, /stand yields stand.gif, and the root-only
path / yields animation.gif. -/
theorem c5_naming :
    (∀ p : String,
      (basenameL (dirnameL (normpathL p.data)) ≠ [] →
        basenameL (normpathL p.data) ≠ [] →
        gifName p = String.mk (basenameL (dirnameL (normpathL p.data)) ++
          '_' :: (basenameL (normpathL p.data) ++ dotGifL))) ∧
      (basenameL (dirnameL (normpathL p.data)) = [] →
        basenameL (normpathL p.data) ≠ [] →
        gifName p = String.mk (basenameL (normpathL p.data) ++ dotGifL)) ∧
      (basenameL (normpathL p.data) = [] → gifName p = "animation.gif")) ∧
    gifName "/projects/character/stand" = "character_stand.gif" ∧
    gifName "/stand" = "stand.gif" ∧
    gifName "/" = "animation.gif" := by
  refine ⟨fun p => ⟨?_, ?_, ?_⟩, by decide, by decide, by decide⟩
  · intro hpar hcur
    simp only [gifName, gifNameL, if_pos (And.intro hpar hcur)]
  · intro hpar hcur
    simp only [gifName, gifNameL]
    rw [if_neg (by simp [hpar]), if_pos hcur]
  · intro hcur
    simp only [gifName, gifNameL]
    rw [if_neg (by simp [hcur]), if_neg (by simp [hcur])]

theorem c5_naming_witness :
    gifName "/projects/character/stand" =
      String.mk (basenameL (dirnameL (normpathL "/projects/character/stand".data)) ++
        '_' :: (basenameL (normpathL "/projects/character/stand".data) ++ dotGifL)) :=
  (c5_naming.1 "/projects/character/stand").1 (by decide) (by decide)

/-- pyJoinL inserts exactly one slash when the left part is non-empty
without a trailing slash and the right part has no leading slash. -/
theorem pyJoinL_slash (a b : List Char) (hb : startsWithL ['/'] b = false)
    (ha : a ≠ []) (has : endsWithL ['/'] a = false) :
    pyJoinL a b = a ++ '/' :: b := by
  unfold pyJoinL
  simp [hb, ha, has]

/-- C7: whenever the encoder is invoked (valid path, frames present), the
command line is exactly: the overwrite flag -y, -framerate with the scene
frame rate, -i with the input pattern "{directory}/{name}%04d.png" using
the fixed 4-digit zero-padded field, the two-pass palette filter chain,
and the resolved output file path; and a non-zero encoder exit status is
surfaced as a failed conversion. -/
theorem c7_encoder_cmd (cfg : GifConfig) (filepath : String)
    (listing : List String)
    (hv : cfg.pathExists ∧ cfg.pathIsFile)
    (hf : pngFilesCS listing ≠ [])
    (hne : dirnameL filepath.data ≠ [])
    (hsl : endsWithL ['/'] (dirnameL filepath.data) = false)
    (hb : startsWithL ['/'] (basenameL filepath.data ++ "%04d.png".data) = false) :
    (convertRun cfg filepath listing).invoked = some
      [cfg.ffmpegPath, "-y", "-framerate", toString cfg.fps,
       "-i", String.mk (dirnameL filepath.data ++ '/' ::
         (basenameL filepath.data ++ "%04d.png".data)),
       "-filter_complex", "[0:v]palettegen=stats_mode=diff[p];[0:v][p]paletteuse",
       String.mk (pyJoinL (pyJoinL (dirnameL filepath.data) "gifs".data)
         (gifNameL (dirnameL filepath.data)))] ∧
    (cfg.encoderExit (buildCmd cfg (String.mk (dirnameL filepath.data))
        (String.mk (basenameL filepath.data))) ≠ 0 →
      (convertRun cfg filepath listing).outcome = ConvertOutcome.encoderError) := by
  constructor
  · simp only [convertRun, if_neg (not_not_intro hv), if_neg hf, buildCmd,
      Option.some.injEq]
    rw [pyJoinL_slash _ _ hb hne hsl]
  · intro hexit
    simp only [convertRun, if_neg (not_not_intro hv), if_neg hf]
    simp [hexit]

theorem c7_encoder_cmd_witness :
    (convertRun (GifConfig.mk "/usr/bin/ffmpeg" true true 24 (fun _ => 1))
        "/projects/character/stand/anim_" ["anim_0001.png", "anim_0002.png"]).outcome =
      ConvertOutcome.encoderError :=
  (c7_encoder_cmd (GifConfig.mk "/usr/bin/ffmpeg" true true 24 (fun _ => 1))
    "/projects/character/stand/anim_" ["anim_0001.png", "anim_0002.png"]
    (by decide) (by decide) (by decide) (by decide) (by decide)).2 (by decide)

mutual
/-- Every entry the walk emits from a well-formed subtree extends the
current path with the subtree's root name followed by gifs-free segments. -/
theorem walkT_paths (t : DirTree) (path : List String)
    (e : List String × List String)
    (h : gifsUniqueT t = true) (he : e ∈ walkT path t) :
    ∃ l, e.1 = path ++ t.dname :: l ∧ "gifs" ∉ l := by
  cases t with
  | node n fs subs =>
    simp only [walkT] at he
    rcases List.mem_cons.mp he with heq | hmem
    · exact ⟨[], by simp [heq, DirTree.dname], by simp⟩
    · simp only [gifsUniqueT, Bool.and_eq_true, decide_eq_true_eq] at h
      obtain ⟨l, hl, hg⟩ := walkF_paths subs (path ++ [n]) true e h.2
        (by simpa using h.1) hmem
      exact ⟨l, by simp [hl, DirTree.dname], hg⟩

/-- Every entry the walk emits from a sibling listing extends the current
path with non-empty, gifs-free segments, provided the listing holds at
most one "gifs" sibling when the removal is still pending and none once
it has fired. -/
theorem walkF_paths (ts : DirForest) (path : List String) (b : Bool)
    (e : List String × List String)
    (h : gifsUniqueF ts = true)
    (hb : ts.gifsCount ≤ if b then 1 else 0)
    (he : e ∈ walkF path b ts) :
    ∃ l, e.1 = path ++ l ∧ "gifs" ∉ l := by
  cases ts with
  | fnil => simp [walkF] at he
  | fcons t ts =>
    simp only [gifsUniqueF, Bool.and_eq_true] at h
    by_cases hc : b = true ∧ t.dname = "gifs"
    · rw [walkF, if_pos hc] at he
      have hcount : ts.gifsCount ≤ if false then 1 else 0 := by
        have h2 : ts.gifsCount ≤ 0 := by
          have h3 := hb
          simp [DirForest.gifsCount, hc.1, hc.2] at h3
          omega
        simpa using h2
      exact walkF_paths ts path false e h.2 hcount he
    · rw [walkF, if_neg hc] at he
      have hname : t.dname ≠ "gifs" := by
        intro hn
        cases hbv : b with
        | true => exact hc ⟨hbv, hn⟩
        | false =>
          rw [hbv] at hb
          have hb2 : (DirForest.fcons t ts).gifsCount ≤ 0 := hb
          simp only [DirForest.gifsCount, if_pos hn] at hb2
          omega
      rcases List.mem_append.mp he with hl | hr
      · obtain ⟨l, hl1, hl2⟩ := walkT_paths t path e h.1 hl
        refine ⟨t.dname :: l, hl1, ?_⟩
        intro hmem
        rcases List.mem_cons.mp hmem with h1 | h2
        · exact hname h1.symm
        · exact hl2 h2
      · have hcount : ts.gifsCount ≤ if b then 1 else 0 := by
          have := hb
          simp only [DirForest.gifsCount, if_neg hname] at this
          omega
        exact walkF_paths ts path b e h.2 hcount hr
end

/-- C6: during a batch walk over a tree whose sibling listings each hold
at most one "gifs" entry (true of any real filesystem), the Locator never
descends into a directory named exactly "gifs" at any depth, so every
path segment after the root of an emitted candidate differs from "gifs":
no candidate lies inside such a directory below the root. -/
theorem c6_no_gifs_descent (t : DirTree) (h : gifsUniqueT t = true)
    (e : List String × List String) (he : e ∈ walkT [] t) :
    "gifs" ∉ e.1.tail := by
  obtain ⟨l, hl, hg⟩ := walkT_paths t [] e h he
  rw [hl]
  simpa using hg

theorem c6_no_gifs_descent_witness :
    "gifs" ∉ ((["root", "shots"], ["s0001.png"]) :
        List String × List String).1.tail :=
  c6_no_gifs_descent
    (DirTree.node "root" []
      (.fcons (.node "gifs" [] (.fcons (.node "inner" ["x0001.png"] .fnil) .fnil))
        (.fcons (.node "shots" ["s0001.png"] .fnil) .fnil)))
    (by decide) (["root", "shots"], ["s0001.png"]) (by decide)

/-- Invariant of the batch fold: attempts, processed count and filepath
writes accumulate exactly one record per candidate entry, in order. -/
theorem batch_fold_spec (cfg : GifConfig) (root : String) :
    ∀ (es : List (List String × List String)) (st : LoopState),
      (es.foldl (batchStep cfg root) st).attempts = st.attempts ++
        (es.filter (fun e => decide (pngFilesCI e.2 ≠ []))).map
          (fun e => (dirpathStr root e.1, stepOutcome cfg root e)) ∧
      (es.foldl (batchStep cfg root) st).processed = st.processed +
        (es.filter (fun e => decide (pngFilesCI e.2 ≠ []))).countP
          (fun e => decide (stepOutcome cfg root e = ConvertOutcome.finished)) ∧
      (es.foldl (batchStep cfg root) st).writes = st.writes ++
        (es.filter (fun e => decide (pngFilesCI e.2 ≠ []))).map
          (tmpFilepath root) := by
  intro es
  induction es with
  | nil => intro st; simp
  | cons e es ih =>
    intro st
    by_cases hc : pngFilesCI e.2 = []
    · have hstep : batchStep cfg root st e = st := by
        simp [batchStep, hc]
      simp only [List.foldl_cons, hstep, List.filter_cons, hc]
      simpa using ih st
    · have hstep : batchStep cfg root st e =
          { processed := st.processed +
              (if stepOutcome cfg root e = ConvertOutcome.finished then 1 else 0),
            attempts := st.attempts ++ [(dirpathStr root e.1, stepOutcome cfg root e)],
            writes := st.writes ++ [tmpFilepath root e],
            scene := ⟨tmpFilepath root e⟩ } := by
        simp [batchStep, hc, stepOutcome, tmpFilepath]
      simp only [List.foldl_cons, hstep, List.filter_cons, hc, decide_not]
      obtain ⟨ih1, ih2, ih3⟩ := ih
        { processed := st.processed +
            (if stepOutcome cfg root e = ConvertOutcome.finished then 1 else 0),
          attempts := st.attempts ++ [(dirpathStr root e.1, stepOutcome cfg root e)],
          writes := st.writes ++ [tmpFilepath root e],
          scene := ⟨tmpFilepath root e⟩ }
      refine ⟨?_, ?_, ?_⟩
      · simpa [List.append_assoc] using ih1
      · rw [ih2]
        simp only [List.countP_cons]
        by_cases hfin : stepOutcome cfg root e = ConvertOutcome.finished <;>
          simp [hfin]
        omega
      · simpa [List.append_assoc] using ih3

/-- C3 (counterexample): the final summary does not report the failure
count.  A run over two candidates of which one fails the encoder and a
run over one candidate with no failure produce the identical summary
message, while their failure counts differ (1 vs 0) — so the summary
cannot report exactly M failures, contradicting the claim. -/
theorem c3_counterexample :
    (batchRun cfgA "/r" treeA ⟨"orig"⟩).summaryMsg =
      (batchRun cfgA "/r" treeB ⟨"orig"⟩).summaryMsg ∧
    (batchRun cfgA "/r" treeA ⟨"orig"⟩).attempts.countP
      (fun a => decide (a.2 ≠ ConvertOutcome.finished)) = 1 ∧
    (batchRun cfgA "/r" treeB ⟨"orig"⟩).attempts.countP
      (fun a => decide (a.2 ≠ ConvertOutcome.finished)) = 0 := by
  refine ⟨?_, ?_, ?_⟩ <;> rfl

/-- C3 (amended): a batch run attempts every candidate folder of the walk
in order — it never aborts early because one folder failed — and the
processed count plus the per-folder failure count equals the number of
candidates (the summary reports the processed count N − M; the failure
count M is not part of the summary). -/
theorem c3_visits_all_and_counts (cfg : GifConfig) (root : String)
    (t : DirTree) (s0 : Scene) :
    (batchRun cfg root t s0).attempts.map Prod.fst =
      (candidatesOf t).map (fun e => dirpathStr root e.1) ∧
    (batchRun cfg root t s0).processed +
      (batchRun cfg root t s0).attempts.countP
        (fun a => decide (a.2 ≠ ConvertOutcome.finished)) =
    (candidatesOf t).length := by
  obtain ⟨h1, h2, h3⟩ := batch_fold_spec cfg root (walkT [] t) ⟨0, [], [], s0⟩
  have hatt : (batchRun cfg root t s0).attempts =
      (candidatesOf t).map
        (fun e => (dirpathStr root e.1, stepOutcome cfg root e)) := by
    simpa [batchRun, candidatesOf] using h1
  have hproc : (batchRun cfg root t s0).processed =
      (candidatesOf t).countP
        (fun e => decide (stepOutcome cfg root e = ConvertOutcome.finished)) := by
    simpa [batchRun, candidatesOf] using h2
  constructor
  · rw [hatt, List.map_map]
    rfl
  · rw [hatt, hproc, List.countP_map]
    have := List.length_eq_countP_add_countP
      (fun e => decide (stepOutcome cfg root e = ConvertOutcome.finished))
      (l := candidatesOf t)
    rw [this]
    congr 1
    apply List.countP_congr
    intro e he
    simp [Function.comp, stepOutcome]

/-- C4 (counterexample): with an invalid encoder path the batch run is
not aborted before any folder is processed; both candidate folders of
treeA are still attempted and each fails individually with the
invalid-path error — the configuration error is converted into
per-folder failures, contradicting the claim's abort-immediately part. -/
theorem c4_counterexample :
    (batchRun cfgBad "/r" treeA ⟨"orig"⟩).attempts =
      [("/r/a", ConvertOutcome.invalidPath), ("/r/b", ConvertOutcome.invalidPath)] := by
  rfl

/-- C4 (amended): the conversion operator validates, before any use of
the encoder, that the configured path exists and is a regular file,
failing fast with the descriptive error message and invoking nothing
otherwise; the batch operator, however, performs no up-front validation:
with an invalid encoder path it still attempts every candidate folder,
each attempt failing with that same per-folder error, instead of aborting
the run. -/
theorem c4_validation :
    (∀ (cfg : GifConfig) (fp : String) (listing : List String),
      ¬ (cfg.pathExists ∧ cfg.pathIsFile) →
      convertRun cfg fp listing = ⟨ConvertOutcome.invalidPath, none,
        some "FFmpeg path is invalid in Add-on Preferences"⟩) ∧
    (∀ (cfg : GifConfig) (root : String) (t : DirTree) (s0 : Scene),
      ¬ (cfg.pathExists ∧ cfg.pathIsFile) →
      (batchRun cfg root t s0).attempts =
        (candidatesOf t).map
          (fun e => (dirpathStr root e.1, ConvertOutcome.invalidPath))) := by
  constructor
  · intro cfg fp listing h
    simp [convertRun, h]
  · intro cfg root t s0 h
    obtain ⟨h1, _, _⟩ := batch_fold_spec cfg root (walkT [] t) ⟨0, [], [], s0⟩
    have hatt : (batchRun cfg root t s0).attempts =
        (candidatesOf t).map
          (fun e => (dirpathStr root e.1, stepOutcome cfg root e)) := by
      simpa [batchRun, candidatesOf] using h1
    rw [hatt]
    apply List.map_congr_left
    intro e he
    simp [stepOutcome, convertRun, h]

theorem c4_validation_witness :
    convertRun cfgBad "/r/a/f" ["f0001.png", "f0002.png"] =
      ⟨ConvertOutcome.invalidPath, none,
        some "FFmpeg path is invalid in Add-on Preferences"⟩ :=
  c4_validation.1 cfgBad "/r/a/f" ["f0001.png", "f0002.png"] (by decide)

/-- C9: after every complete batch run the scene render filepath equals
its value from before the run — the operator saves it before walking and
restores it afterwards — even though the loop overwrites it exactly once
per candidate folder during processing. -/
theorem c9_filepath_restored (cfg : GifConfig) (root : String) (t : DirTree)
    (s0 : Scene) :
    (batchRun cfg root t s0).finalFilepath = s0.filepath ∧
    (batchRun cfg root t s0).writes = (candidatesOf t).map (tmpFilepath root) := by
  obtain ⟨_, _, h3⟩ := batch_fold_spec cfg root (walkT [] t) ⟨0, [], [], s0⟩
  exact ⟨rfl, by simpa [batchRun, candidatesOf] using h3⟩

/-- C10: a visited folder all of whose filenames fail the case-sensitive
".png" test while at least one passes it after lowercasing (for example a
folder holding only ".PNG" frames) is selected as a batch candidate, yet
its conversion fails with the no-frames error and it is not counted as
processed. -/
theorem c10_case_mismatch (cfg : GifConfig) (root : String) (st : LoopState)
    (e : List String × List String)
    (hv : cfg.pathExists ∧ cfg.pathIsFile)
    (h1 : ∃ f ∈ e.2, endsWithL (".png".data) (lowerL f.data) = true)
    (h2 : ∀ f ∈ e.2, endsWithL (".png".data) f.data = false) :
    pngFilesCI e.2 ≠ [] ∧
    (batchStep cfg root st e).attempts =
      st.attempts ++ [(dirpathStr root e.1, ConvertOutcome.noFrames)] ∧
    (batchStep cfg root st e).processed = st.processed := by
  obtain ⟨f, hf, hlow⟩ := h1
  have hci : pngFilesCI e.2 ≠ [] :=
    List.ne_nil_of_mem (List.mem_filter.mpr ⟨hf, hlow⟩)
  have hcs : pngFilesCS e.2 = [] := by
    apply List.filter_eq_nil_iff.mpr
    intro a ha
    simp [h2 a ha]
  have hconv : (convertRun cfg (tmpFilepath root e) e.2).outcome =
      ConvertOutcome.noFrames := by
    simp [convertRun, not_not_intro hv, hcs]
  refine ⟨hci, ?_, ?_⟩
  · simp [batchStep, hci, hconv]
  · simp [batchStep, hci, hconv]

theorem c10_case_mismatch_witness :
    pngFilesCI (((["r", "c"], ["frame0001.PNG"]) :
        List String × List String)).2 ≠ [] ∧
    (batchStep cfgA "/r" ⟨0, [], [], ⟨"orig"⟩⟩ (["r", "c"], ["frame0001.PNG"])).attempts =
      ([] : List (String × ConvertOutcome)) ++
        [("/r/c", ConvertOutcome.noFrames)] ∧
    (batchStep cfgA "/r" ⟨0, [], [], ⟨"orig"⟩⟩ (["r", "c"], ["frame0001.PNG"])).processed = 0 :=
  c10_case_mismatch cfgA "/r" ⟨0, [], [], ⟨"orig"⟩⟩ (["r", "c"], ["frame0001.PNG"])
    (by decide) (by decide) (by decide)

/-- runT preserves the directory's name. -/
theorem dname_runT (cfg : GifConfig) (t : DirTree) :
    (runT cfg t).dname = t.dname := by
  cases t with
  | node n fs subs => rfl

/-- runF preserves which names occur in a listing's top level. -/
theorem anyGifs_runF (cfg : GifConfig) :
    ∀ (b : Bool) (ts : DirForest), (runF cfg b ts).anyGifs = ts.anyGifs
  | _, .fnil => rfl
  | b, .fcons t ts => by
    by_cases hc : b = true ∧ t.dname = "gifs"
    · rw [runF, if_pos hc]
      simp only [DirForest.anyGifs, anyGifs_runF cfg false ts]
    · rw [runF, if_neg hc]
      simp only [DirForest.anyGifs, anyGifs_runF cfg b ts, dname_runT]

/-- Appending a fresh "gifs" node to a gifs-free listing adds nothing to
the walk: the appended node is pruned. -/
theorem walkF_fappend_gifs (path : List String) :
    ∀ (ts : DirForest), ts.anyGifs = false →
      walkF path true (ts.fappend (.fcons gifsNode .fnil)) = walkF path true ts
  | .fnil, _ => by
    simp [DirForest.fappend, walkF, gifsNode, DirTree.dname]
  | .fcons t ts, h => by
    simp only [DirForest.anyGifs, Bool.or_eq_false_iff, beq_eq_false_iff_ne,
      ne_eq] at h
    rw [DirForest.fappend, walkF, if_neg (by simp [h.1]), walkF,
      if_neg (by simp [h.1]), walkF_fappend_gifs path ts h.2]

mutual
/-- Scanning a once-transformed tree yields exactly the original walk:
the generated "gifs" folders are skipped by the rescan. -/
theorem walkT_runT (cfg : GifConfig) (t : DirTree) (path : List String) :
    walkT path (runT cfg t) = walkT path t := by
  cases t with
  | node n fs subs =>
    by_cases hc : createsGifs cfg fs subs = true
    · have hng : subs.anyGifs = false := by
        have h1 := hc
        simp only [createsGifs, Bool.and_eq_true, Bool.not_eq_true',
          hasGifsEntry, Bool.or_eq_false_iff] at h1
        exact h1.2.2
      rw [runT, if_pos hc, walkT, walkT, walkF_fappend_gifs _ _
        (by rw [anyGifs_runF]; exact hng), walkF_runF cfg subs (path ++ [n]) true]
    · rw [runT, if_neg hc, walkT, walkT, walkF_runF]
/-- Listing-level companion of walkT_runT. -/
theorem walkF_runF (cfg : GifConfig) (ts : DirForest) (path : List String)
    (b : Bool) : walkF path b (runF cfg b ts) = walkF path b ts := by
  cases ts with
  | fnil => rfl
  | fcons t ts =>
    by_cases hc : b = true ∧ t.dname = "gifs"
    · rw [runF, if_pos hc, walkF, if_pos hc, walkF, if_pos hc,
        walkF_runF cfg ts path false]
    · have hc2 : ¬ (b = true ∧ (runT cfg t).dname = "gifs") := by
        rw [dname_runT]; exact hc
      rw [runF, if_neg hc, walkF, if_neg hc2, walkF, if_neg hc,
        walkT_runT cfg t path, walkF_runF cfg ts path b]
end

/-- anyGifs over a concatenation. -/
theorem anyGifs_fappend : ∀ (xs ys : DirForest),
    (xs.fappend ys).anyGifs = (xs.anyGifs || ys.anyGifs)
  | .fnil, ys => by simp [DirForest.fappend, DirForest.anyGifs]
  | .fcons x xs, ys => by
    simp [DirForest.fappend, DirForest.anyGifs, anyGifs_fappend xs ys,
      Bool.or_assoc]

/-- createsGifs only inspects the listing's top-level names, and runF
preserves those. -/
theorem createsGifs_runF (cfg : GifConfig) (fs : List String) (b : Bool)
    (ts : DirForest) :
    createsGifs cfg fs (runF cfg b ts) = createsGifs cfg fs ts := by
  simp [createsGifs, hasGifsEntry, anyGifs_runF]

/-- Running over a gifs-free listing with a fresh "gifs" node appended
transforms the listing and leaves the appended node untouched (pruned). -/
theorem runF_fappend_gifs (cfg : GifConfig) :
    ∀ (ts : DirForest), ts.anyGifs = false →
      runF cfg true (ts.fappend (.fcons gifsNode .fnil)) =
        (runF cfg true ts).fappend (.fcons gifsNode .fnil)
  | .fnil, _ => by
    simp [DirForest.fappend, runF, gifsNode, DirTree.dname]
  | .fcons t ts, h => by
    simp only [DirForest.anyGifs, Bool.or_eq_false_iff, beq_eq_false_iff_ne,
      ne_eq] at h
    rw [DirForest.fappend, runF, if_neg (by simp [h.1]), runF,
      if_neg (by simp [h.1]), DirForest.fappend,
      runF_fappend_gifs cfg ts h.2]

mutual
/-- A second run leaves a once-run tree unchanged. -/
theorem runT_idem (cfg : GifConfig) (t : DirTree) :
    runT cfg (runT cfg t) = runT cfg t := by
  cases t with
  | node n fs subs =>
    by_cases hc : createsGifs cfg fs subs = true
    · have hng : subs.anyGifs = false := by
        have h1 := hc
        simp only [createsGifs, Bool.and_eq_true, Bool.not_eq_true',
          hasGifsEntry, Bool.or_eq_false_iff] at h1
        exact h1.2.2
      rw [runT, if_pos hc, runT,
        if_neg (by simp [createsGifs, hasGifsEntry, anyGifs_fappend,
          DirForest.anyGifs, gifsNode, DirTree.dname]),
        runF_fappend_gifs cfg _ (by rw [anyGifs_runF]; exact hng),
        runF_idem cfg true subs]
    · rw [runT, if_neg hc, runT,
        if_neg (by rw [createsGifs_runF]; exact hc),
        runF_idem cfg true subs]
/-- Listing-level companion of runT_idem. -/
theorem runF_idem (cfg : GifConfig) (b : Bool) (ts : DirForest) :
    runF cfg b (runF cfg b ts) = runF cfg b ts := by
  cases ts with
  | fnil => rfl
  | fcons t ts =>
    by_cases hc : b = true ∧ t.dname = "gifs"
    · rw [runF, if_pos hc, runF, if_pos hc, runF_idem cfg false ts]
    · have hc2 : ¬ (b = true ∧ (runT cfg t).dname = "gifs") := by
        rw [dname_runT]; exact hc
      rw [runF, if_neg hc, runF, if_neg hc2, runT_idem cfg t,
        runF_idem cfg b ts]
end

/-- C8: re-running the batch over the same root is idempotent with
respect to output-folder structure.  One run's effect on the tree's
folder structure is runT; re-scanning the transformed tree walks exactly
the original entries — the output folders generated by the previous run
are skipped — and a second run leaves the tree unchanged, so no nested
"gifs" inside "gifs" folder is ever produced by re-running. -/
theorem c8_idempotent (cfg : GifConfig) (t : DirTree) :
    walkT [] (runT cfg t) = walkT [] t ∧ runT cfg (runT cfg t) = runT cfg t :=
  ⟨walkT_runT cfg t [], runT_idem cfg t⟩
